import Mathlib

/-!
# Verification of `autogen_pulse.pulse_filter`

A shallow embedding of `src/packages/autogen-pulse/src/autogen_pulse/pulse_filter.py`
and proofs about it.

Modelling conventions:
* Python/JSON values are modelled by the inductive `PyVal`; Python numbers
  (int and float alike) are modelled as exact rationals (`ℚ`), so floating
  point rounding is abstracted away.
* `dict.get` is modelled over association lists (JSON decoding yields
  distinct keys).
* Python exceptions become `Except PulseError`; the structured `PulseError`
  records the data the corresponding exception message carries.
* Character classes (`\d`, `\s`, `.lower()`) are modelled over their ASCII
  behaviour, which is the relevant fragment for hex addresses and threshold
  strings.
* The effectful HTTP loop `_http_get_json` is modelled as a pure function of
  a "script" assigning each attempt index its outcome; the sleeps performed
  and the number of attempts made are returned alongside the result.
-/

set_option autoImplicit false

namespace PulseFilter

/-- A Python/JSON value as manipulated by `pulse_filter.py`.  `int` and
`float` are kept separate because `int(...)` coercion treats them
differently from strings; floats are modelled as exact rationals. -/
inductive PyVal where
  | none
  | bool (b : Bool)
  | int (n : ℤ)
  | float (q : ℚ)
  | str (s : String)
  | list (xs : List PyVal)
  | dict (fields : List (String × PyVal))
deriving Repr

/-- Python whitespace (`str.strip`, regex `\s`), restricted to ASCII. -/
def pyIsSpace (c : Char) : Bool :=
  c = ' ' || c = '\t' || c = '\n' || c = '\r' || c = '\x0b' || c = '\x0c'

/-- Python `str.strip()`: drop leading and trailing whitespace. -/
def pyStrip (s : String) : String :=
  ⟨((s.toList.dropWhile pyIsSpace).reverse.dropWhile pyIsSpace).reverse⟩

/-- Python `str.lower()` (ASCII fragment). -/
def pyLower (s : String) : String :=
  ⟨s.toList.map Char.toLower⟩

/-- Python `s[:n]` on a string: the first `n` characters. -/
def strTruncate (s : String) (n : ℕ) : String :=
  ⟨s.toList.take n⟩

/-- Python `s[n:]` on a string: drop the first `n` characters. -/
def strDrop (s : String) (n : ℕ) : String :=
  ⟨s.toList.drop n⟩

/-- Value of a digit string read in base 10. -/
def digitsToNat (ds : List Char) : ℕ :=
  ds.foldl (fun a c => a * 10 + (c.toNat - 48)) 0

/-- The rational denoted by `intDs ++ "." ++ fracDs` (what Python's
`float(...)` returns on the matched threshold value, modelled exactly):
the digits read as one integer, divided by ten to the number of fractional
digits. -/
def decimalValue (intDs fracDs : List Char) : ℚ :=
  mkRat (digitsToNat (intDs ++ fracDs)) (10 ^ fracDs.length)

/-- Structured stand-in for the exceptions raised by `pulse_filter.py`:
`valueError` for `ValueError`, and the two `AgentPulseError` forms, which
carry the URL, the HTTP status when there is one, and the response body
truncated to 200 characters. -/
inductive PulseError where
  | valueError (msg : String)
  | httpFail (url : String) (status : Option ℤ) (bodyTrunc : String)
  | netFail (url : String) (msg : String)
deriving Repr, DecidableEq

/-- The unit captured by the threshold regex; the pattern `[smhd]` only ever
captures one of these four letters, which is why the function's trailing
`raise` for an unknown unit is unreachable. -/
inductive TimeUnit where
  | s | m | h | d
deriving Repr, DecidableEq

def unitOfChar : Char → Option TimeUnit
  | 's' => some .s
  | 'm' => some .m
  | 'h' => some .h
  | 'd' => some .d
  | _ => Option.none

/-- The regex `^(?P<value>\d+(?:\.\d+)?)\s*(?P<unit>[smhd])$` of
`parse_threshold`, as a deterministic matcher (digit, whitespace and unit
characters are pairwise disjoint, so maximal munch agrees with the regex). -/
def thresholdMatch (s : String) : Option (ℚ × TimeUnit) :=
  let cs := s.toList
  let intDs := cs.takeWhile Char.isDigit
  let rest := cs.dropWhile Char.isDigit
  if intDs.isEmpty then Option.none
  else
    let fr :=
      match rest with
      | '.' :: r =>
        let f := r.takeWhile Char.isDigit
        if f.isEmpty then (([] : List Char), rest)
        else (f, r.dropWhile Char.isDigit)
      | _ => (([] : List Char), rest)
    match fr.2.dropWhile pyIsSpace with
    | [u] => (unitOfChar u).map (fun tu => (decimalValue intDs fr.1, tu))
    | _ => Option.none

/-- The possible Python types of the `threshold` argument.  `other` covers
every type that is neither `str` nor a number; `bool` is listed because
Python's `bool` is a subclass of `int` and hence passes the
`isinstance(threshold, (int, float))` test. -/
inductive ThresholdInput where
  | int (n : ℤ)
  | float (q : ℚ)
  | bool (b : Bool)
  | str (s : String)
  | other
deriving Repr

/-- The numeric value an input exposes to `isinstance(threshold, (int, float))`:
ints and floats are themselves, and a `bool` counts as `0`/`1` because
`bool` subclasses `int`. -/
def thresholdNumericValue : ThresholdInput → Option ℚ
  | .int n => some (n : ℚ)
  | .float q => some q
  | .bool b => some (if b then 1 else 0)
  | _ => Option.none

/-- `parse_threshold` (pulse_filter.py lines 52-103). -/
def parse_threshold (t : ThresholdInput) : Except PulseError ℚ :=
  match thresholdNumericValue t with
  | some q =>
    if q ≤ 0 then .error (.valueError "threshold must be > 0") else .ok q
  | Option.none =>
    match t with
    | .str s0 =>
      match thresholdMatch (pyLower (pyStrip s0)) with
      | Option.none =>
        .error (.valueError "threshold must look like 24h, 15m, 2d, or a numeric hour value")
      | some (v, u) =>
        if v ≤ 0 then .error (.valueError "threshold must be > 0")
        else
          match u with
          | .s => .ok (v / 3600)
          | .m => .ok (v / 60)
          | .h => .ok v
          | .d => .ok (v * 24)
    | _ => .error (.valueError "Unsupported threshold type")

/-- Does a character list start with `0x` or `0X`?  (The two
`address.startswith` tests of `_normalize_address`.) -/
def addrHexLead : List Char → Bool
  | c0 :: c1 :: _ => c0 = '0' && (c1 = 'x' || c1 = 'X')
  | _ => false

/-- `_normalize_address` (pulse_filter.py lines 106-113). -/
def normalize_address (address : String) : Except PulseError String :=
  let a := pyStrip address
  if a.toList.isEmpty then .error (.valueError "Empty address")
  else if addrHexLead a.toList then .ok ("0x" ++ pyLower (strDrop a 2))
  else .ok (pyLower a)

/-- Python `dict.get(key)` over an association list (`None` when absent). -/
def pyGet (d : List (String × PyVal)) (k : String) : PyVal :=
  match d.find? (fun p => p.1 = k) with
  | some p => p.2
  | Option.none => PyVal.none

/-- Python truthiness, `bool(x)`, on the modelled values. -/
def pyTruthy : PyVal → Bool
  | .none => false
  | .bool b => b
  | .int n => n ≠ 0
  | .float q => q ≠ 0
  | .str s => s ≠ ""
  | .list xs => ¬xs.isEmpty
  | .dict fs => ¬fs.isEmpty

/-- Truncation of a rational toward zero: what Python's `int(...)` does to
a float (`Int.tdiv` is the toward-zero division, so e.g.
`ratTrunc (-7/2) = -3` like Python's `int(-3.5)`). -/
def ratTrunc (q : ℚ) : ℤ :=
  q.num.tdiv (q.den : ℤ)

/-- The tail of a Python integer digit group after its leading digit:
`(["_"] digit)*` — each underscore must sit between two digits. -/
def digitGroupGo (acc : ℕ) : List Char → Option ℕ
  | [] => some acc
  | '_' :: c :: rest =>
    if c.isDigit then digitGroupGo (acc * 10 + (c.toNat - 48)) rest
    else Option.none
  | ['_'] => Option.none
  | c :: rest =>
    if c.isDigit then digitGroupGo (acc * 10 + (c.toNat - 48)) rest
    else Option.none

/-- A Python integer digit group, `digit (["_"] digit)*`: a nonempty digit
run with optional single underscores between digits (so `"1_0"` is 10 but
`"_1"`, `"1_"` and `"1__0"` are rejected). -/
def digitGroup : List Char → Option ℕ
  | [] => Option.none
  | c :: rest =>
    if c.isDigit then digitGroupGo (c.toNat - 48) rest else Option.none

/-- Python `int(s)` on a string: strip whitespace, optional sign, then a
digit group (ASCII fragment). `Option.none` models the `ValueError`. -/
def pyIntOfString (s : String) : Option ℤ :=
  let cs := (pyStrip s).toList
  match cs with
  | '+' :: r => (digitGroup r).map Int.ofNat
  | '-' :: r => (digitGroup r).map (fun n => -(n : ℤ))
  | r => (digitGroup r).map Int.ofNat

/-- Python `int(x)` on an arbitrary value; `Option.none` models the
exception swallowed by the `try`/`except` blocks in `get_agent_status`. -/
def pyToInt : PyVal → Option ℤ
  | .none => Option.none
  | .bool b => some (if b then 1 else 0)
  | .int n => some n
  | .float q => some (ratTrunc q)
  | .str s => pyIntOfString s
  | .list _ => Option.none
  | .dict _ => Option.none

/-- `AgentPulseStatus` (pulse_filter.py lines 41-49). -/
structure AgentPulseStatus where
  address : String
  alive : Option Bool
  last_pulse_timestamp : Option ℤ
  streak_count : Option ℤ
  raw : List (String × PyVal)
deriving Repr

/-- The response-normalization half of `get_agent_status`
(pulse_filter.py lines 220-256): given the normalized address and the
decoded payload, build the `AgentPulseStatus`.  Total — coercion failures
yield `Option.none` fields, never an error. -/
def statusOfPayload (norm : String) (payload : List (String × PyVal)) :
    AgentPulseStatus :=
  let aliveRaw :=
    match pyGet payload "alive" with
    | PyVal.none => pyGet payload "isAlive"
    | v => v
  let lastPulseRaw :=
    match pyGet payload "lastPulse" with
    | PyVal.none => pyGet payload "lastPulseTimestamp"
    | v => v
  let streakRaw :=
    match pyGet payload "streakCount" with
    | PyVal.none => pyGet payload "streak"
    | v => v
  let lastPulseTs : Option ℤ :=
    match lastPulseRaw with
    | PyVal.none => Option.none
    | v =>
      match pyToInt v with
      | some lp => some (if 10000000000 < lp then Int.fdiv lp 1000 else lp)
      | Option.none => Option.none
  let streakCount : Option ℤ :=
    match streakRaw with
    | PyVal.none => Option.none
    | v => pyToInt v
  { address := norm
    alive :=
      match aliveRaw with
      | PyVal.none => Option.none
      | v => some (pyTruthy v)
    last_pulse_timestamp := lastPulseTs
    streak_count := streakCount
    raw := payload }

/-- `_is_recent` (pulse_filter.py lines 259-265). -/
def is_recent (status : AgentPulseStatus) (now_ts threshold_seconds : ℤ) :
    Bool :=
  match status.last_pulse_timestamp with
  | Option.none => status.alive.getD false
  | some ts => max 0 (now_ts - ts) ≤ threshold_seconds

/-- Outcome of one attempt inside `_http_get_json`: a decoded JSON body, an
`HTTPError` (status is `getattr(e, "code", None)`; `body` is what `e.read()`
yields, `Option.none` when that read itself fails), or a low-level
`URLError`/`TimeoutError`. -/
inductive AttemptResult where
  | success (payload : PyVal)
  | httpError (status : Option ℤ) (body : Option String)
  | netError (msg : String)
deriving Repr

/-- The retryability test of `_http_get_json` (line 178):
`status in (408, 429) or (isinstance(status, int) and 500 <= status <= 599)`. -/
def retryableStatus : Option ℤ → Bool
  | some s => s = 408 || s = 429 || (500 ≤ s && s ≤ 599)
  | Option.none => false

/-- An attempt outcome on which the loop would retry (when budget remains). -/
def retryableFailure : AttemptResult → Bool
  | .success _ => false
  | .httpError s _ => retryableStatus s
  | .netError _ => true

/-- What one call of `_http_get_json` did: its result, the sleeps it
performed (in order, in seconds) and how many attempts it made. -/
structure FetchOutcome where
  result : Except PulseError PyVal
  sleeps : List ℚ
  attempts : ℕ
deriving Repr

/-- The loop body of `_http_get_json` (pulse_filter.py lines 169-195) from
attempt number `attempt` on, driven by the script of attempt outcomes. -/
def http_get_json_from (script : ℕ → AttemptResult) (url : String)
    (maxRetries : ℕ) (backoff : ℚ) (attempt : ℕ) : FetchOutcome :=
  match script attempt with
  | .success p => ⟨.ok p, [], 1⟩
  | .httpError status body =>
    if h : maxRetries ≤ attempt ∨ retryableStatus status = false then
      ⟨.error (.httpFail url status (strTruncate (body.getD "") 200)), [], 1⟩
    else
      let r := http_get_json_from script url maxRetries backoff (attempt + 1)
      ⟨r.result, backoff * 2 ^ attempt :: r.sleeps, r.attempts + 1⟩
  | .netError msg =>
    if h : maxRetries ≤ attempt then
      ⟨.error (.netFail url msg), [], 1⟩
    else
      let r := http_get_json_from script url maxRetries backoff (attempt + 1)
      ⟨r.result, backoff * 2 ^ attempt :: r.sleeps, r.attempts + 1⟩
termination_by maxRetries + 1 - attempt
decreasing_by
  · omega
  · omega

/-- `_http_get_json` (pulse_filter.py lines 157-198): run the loop from
attempt 0. -/
def http_get_json (script : ℕ → AttemptResult) (url : String)
    (maxRetries : ℕ) (backoff : ℚ) : FetchOutcome :=
  http_get_json_from script url maxRetries backoff 0

/-- What one call of `filter_alive_agents` did: its result (the kept agents,
or the propagated error) and the agents it attempted to check, in order. -/
structure FilterOutcome (α : Type) where
  result : Except PulseError (List α)
  checked : List α
deriving Repr

/-- The per-agent loop of `filter_alive_agents` (pulse_filter.py lines
309-326).  `check` combines the address extraction and the status fetch for
one agent, the two steps inside the `try` that can raise. -/
def filterGo {α : Type} (check : α → Except PulseError AgentPulseStatus)
    (now_ts threshold_seconds : ℤ) (drop_on_error : Bool) :
    List α → FilterOutcome α
  | [] => ⟨.ok [], []⟩
  | a :: rest =>
    match check a with
    | .ok st =>
      let r := filterGo check now_ts threshold_seconds drop_on_error rest
      ⟨r.result.map (fun l =>
          if is_recent st now_ts threshold_seconds then a :: l else l),
        a :: r.checked⟩
    | .error e =>
      if drop_on_error then
        let r := filterGo check now_ts threshold_seconds drop_on_error rest
        ⟨r.result, a :: r.checked⟩
      else ⟨.error e, [a]⟩

/-- `filter_alive_agents` (pulse_filter.py lines 268-326):
the threshold guard, `threshold_seconds = int(float(threshold_hours) * 3600)`,
then the loop. -/
def filter_alive_agents {α : Type} (agents : List α) (threshold_hours : ℚ)
    (check : α → Except PulseError AgentPulseStatus) (now_ts : ℤ)
    (drop_on_error : Bool) : FilterOutcome α :=
  if threshold_hours ≤ 0 then
    ⟨.error (.valueError "threshold_hours must be > 0"), []⟩
  else
    filterGo check now_ts (ratTrunc (threshold_hours * 3600)) drop_on_error
      agents

/-! ## Theorems -/

/-- C1: for every status and every now/threshold pair, the recency decision
holds exactly when: with a timestamp present, `max 0 (now - ts) ≤ threshold`
(a future timestamp counts as zero staleness); with no timestamp, the
`alive` flag is `some true` (a null `alive` counts as not alive).  The
closed conjuncts are the spec's four worked examples (plus the null-alive
case). -/
theorem is_recent_spec :
    (∀ (st : AgentPulseStatus) (now thr : ℤ),
      is_recent st now thr = true ↔
        match st.last_pulse_timestamp with
        | some ts => max 0 (now - ts) ≤ thr
        | Option.none => st.alive = some true)
    ∧ is_recent ⟨"a", Option.none, some 500, Option.none, []⟩ 1000 3600 = true
    ∧ is_recent ⟨"a", Option.none, some 0, Option.none, []⟩ 1000 100 = false
    ∧ is_recent ⟨"a", some true, Option.none, Option.none, []⟩ 1000 3600 = true
    ∧ is_recent ⟨"a", some false, Option.none, Option.none, []⟩ 1000 3600 = false
    ∧ is_recent ⟨"a", Option.none, Option.none, Option.none, []⟩ 1000 3600 = false := by
  refine ⟨fun st now thr => ?_, by decide, by decide, by decide, by decide, by decide⟩
  cases hts : st.last_pulse_timestamp with
  | none =>
    cases ha : st.alive with
    | none => simp [is_recent, hts, ha]
    | some b => cases b <;> simp [is_recent, hts, ha]
  | some ts => simp [is_recent, hts]

/-- The unit conversions of `parse_threshold`'s four return branches:
s→/3600, m→/60, h→identity, d→×24. -/
def unitToHours (v : ℚ) : TimeUnit → ℚ
  | .s => v / 3600
  | .m => v / 60
  | .h => v
  | .d => v * 24

/-- A positively-valued regex match determines `parse_threshold`'s output. -/
theorem parse_threshold_match_ok (s : String) (v : ℚ) (u : TimeUnit)
    (hm : thresholdMatch (pyLower (pyStrip s)) = some (v, u)) (hv : 0 < v) :
    parse_threshold (.str s) = .ok (unitToHours v u) := by
  simp only [parse_threshold, thresholdNumericValue, hm]
  rw [if_neg (not_le.mpr hv)]
  cases u <;> rfl

/-- C6: on accepted inputs, `parse_threshold` converts the matched value to
hours by s→/3600, m→/60, h→identity, d→×24, and a positive number is
returned as such; with the spec's worked examples. -/
theorem parse_threshold_units :
    (∀ (s : String) (v : ℚ) (u : TimeUnit),
      thresholdMatch (pyLower (pyStrip s)) = some (v, u) → 0 < v →
      parse_threshold (.str s) = .ok (unitToHours v u))
    ∧ parse_threshold (.str "24h") = .ok 24
    ∧ parse_threshold (.str "15m") = .ok 0.25
    ∧ parse_threshold (.str "2d") = .ok 48
    ∧ parse_threshold (.str "90s") = .ok 0.025
    ∧ parse_threshold (.int 3) = .ok 3
    ∧ (∀ q : ℚ, 0 < q → parse_threshold (.float q) = .ok q) := by
  refine ⟨parse_threshold_match_ok, ?_, ?_, ?_, ?_, rfl, fun q hq => ?_⟩
  · rw [parse_threshold_match_ok "24h" 24 .h (by decide) (by norm_num)]
    rfl
  · rw [parse_threshold_match_ok "15m" 15 .m (by decide) (by norm_num)]
    simp only [unitToHours, Except.ok.injEq]
    norm_num
  · rw [parse_threshold_match_ok "2d" 2 .d (by decide) (by norm_num)]
    simp only [unitToHours, Except.ok.injEq]
    norm_num
  · rw [parse_threshold_match_ok "90s" 90 .s (by decide) (by norm_num)]
    simp only [unitToHours, Except.ok.injEq]
    norm_num
  · simp only [parse_threshold, thresholdNumericValue]
    rw [if_neg (not_le.mpr hq)]

/-- C6 witness: the unit-conversion conjunct applied at the concrete input
`"2d"`, whose match value is `2` with unit `d`. -/
theorem parse_threshold_units_witness :
    parse_threshold (.str "2d") = .ok (2 * 24) :=
  parse_threshold_units.1 "2d" 2 TimeUnit.d (by decide) (by decide)

/-- The pattern C7 claims for threshold strings, from the spec's words:
`^\d+(\.\d+)?[smhd]$`, case-insensitive, ignoring only surrounding
whitespace — in particular, no whitespace between the number and the unit.
Stated for comparison with the code's `thresholdMatch`. -/
def specThresholdAccepts (s0 : String) : Bool :=
  let cs := (pyLower (pyStrip s0)).toList
  let intDs := cs.takeWhile Char.isDigit
  let rest := cs.dropWhile Char.isDigit
  if intDs.isEmpty then false
  else
    let fr :=
      match rest with
      | '.' :: r =>
        let f := r.takeWhile Char.isDigit
        if f.isEmpty then (([] : List Char), rest)
        else (f, r.dropWhile Char.isDigit)
      | _ => (([] : List Char), rest)
    match fr.2 with
    | [u] => (unitOfChar u).isSome
    | _ => false

/-- C7 counterexample: the input `"24 h"` does not match the claimed
pattern (whitespace between number and unit, so C7 says it must fail), yet
`parse_threshold` accepts it and returns 24 hours: the code's regex is
`^\d+(\.\d+)?\s*[smhd]$` on the stripped string. -/
theorem parse_threshold_ws_counterexample :
    specThresholdAccepts "24 h" = false
    ∧ parse_threshold (.str "24 h") = .ok 24 :=
  ⟨by decide, rfl⟩

/-- C7 amended: `parse_threshold` fails with an invalid-argument condition
exactly when the input is not accepted, where an input is accepted iff it
is a number (including `bool`) with positive value, or a string that —
after trimming surrounding whitespace and lowercasing — matches
`^\d+(\.\d+)?\s*[smhd]$` (so whitespace is also allowed between the number
and the unit) with a positive matched value. -/
theorem parse_threshold_error_iff :
    ∀ t : ThresholdInput,
      (∃ e, parse_threshold t = .error e) ↔
        ¬ ((∃ q, thresholdNumericValue t = some q ∧ 0 < q)
           ∨ (∃ s v u, t = ThresholdInput.str s
                ∧ thresholdMatch (pyLower (pyStrip s)) = some (v, u)
                ∧ 0 < v)) := by
  intro t
  cases t with
  | int n =>
    by_cases h : (n : ℚ) ≤ 0
    · simp [parse_threshold, thresholdNumericValue, h, not_lt.mpr h]
    · simp [parse_threshold, thresholdNumericValue, h, not_le.mp h]
  | float q =>
    by_cases h : q ≤ 0
    · simp [parse_threshold, thresholdNumericValue, h, not_lt.mpr h]
    · simp [parse_threshold, thresholdNumericValue, h, not_le.mp h]
  | bool b =>
    cases b
    · norm_num [parse_threshold, thresholdNumericValue]
      intro x h
      exact ThresholdInput.noConfusion h
    · norm_num [parse_threshold, thresholdNumericValue]
      intro x h
      exact Except.noConfusion h
  | other =>
    simp [parse_threshold, thresholdNumericValue]
  | str s =>
    cases hm : thresholdMatch (pyLower (pyStrip s)) with
    | none => simp [parse_threshold, thresholdNumericValue, hm]
    | some p =>
      obtain ⟨v, u⟩ := p
      by_cases hv : v ≤ 0
      · simp [parse_threshold, thresholdNumericValue, hm, hv, not_lt.mpr hv]
      · cases u <;>
          simp [parse_threshold, thresholdNumericValue, hm, hv, not_le.mp hv]

/-- A string is empty exactly when its character list is. -/
theorem toList_nil_iff (t : String) : t.toList = [] ↔ t = "" := by
  constructor
  · intro h
    exact String.ext h
  · intro h
    rw [h]
    rfl

/-- `addrHexLead` agrees with "the first two characters are `0x` or `0X`". -/
theorem addrHexLead_iff (l : List Char) :
    addrHexLead l = true ↔ l.take 2 = ['0', 'x'] ∨ l.take 2 = ['0', 'X'] := by
  match l with
  | [] => simp [addrHexLead]
  | [a] =>
    simp [addrHexLead, List.take]
  | a :: b :: rest =>
    simp [addrHexLead, List.take, and_or_left]

/-- C8: address normalization trims surrounding whitespace; a trimmed
string starting with `0x`/`0X` becomes lowercase `0x` followed by the
remaining characters lowercased, any other nonempty trimmed string is
lowercased whole, and an empty trimmed string is an invalid argument; with
the spec's worked examples. -/
theorem normalize_address_spec :
    (∀ s : String,
      (pyStrip s = "" →
        normalize_address s = .error (.valueError "Empty address"))
      ∧ ((pyStrip s).toList.take 2 = ['0', 'x']
          ∨ (pyStrip s).toList.take 2 = ['0', 'X'] →
          normalize_address s =
            .ok ("0x" ++ String.mk (((pyStrip s).toList.drop 2).map Char.toLower)))
      ∧ (pyStrip s ≠ "" →
          ¬((pyStrip s).toList.take 2 = ['0', 'x']
            ∨ (pyStrip s).toList.take 2 = ['0', 'X']) →
          normalize_address s =
            .ok (String.mk ((pyStrip s).toList.map Char.toLower))))
    ∧ normalize_address " 0xABCdef " = .ok "0xabcdef"
    ∧ normalize_address "ABCDEF" = .ok "abcdef"
    ∧ normalize_address "" = .error (.valueError "Empty address") := by
  refine ⟨fun s => ⟨?_, ?_, ?_⟩, rfl, rfl, rfl⟩
  · intro h
    simp only [normalize_address]
    rw [h]
    rfl
  · intro hhex
    have hlead : addrHexLead (pyStrip s).toList = true :=
      (addrHexLead_iff _).mpr hhex
    have hne : (pyStrip s).toList.isEmpty = false := by
      cases hc : (pyStrip s).toList with
      | nil =>
        rw [hc] at hhex
        simp [List.take] at hhex
      | cons a rest => rfl
    simp only [normalize_address, hne, hlead, Bool.false_eq_true, if_false,
      if_true]
    rfl
  · intro hne0 hno
    have hlead : addrHexLead (pyStrip s).toList = false := by
      rw [← Bool.not_eq_true, addrHexLead_iff]
      exact hno
    have hne : (pyStrip s).toList.isEmpty = false := by
      cases hc : (pyStrip s).toList with
      | nil => exact absurd ((toList_nil_iff _).mp hc) hne0
      | cons a rest => rfl
    simp only [normalize_address, hne, hlead, Bool.false_eq_true, if_false]
    rfl

/-- C8 witness: the `0x`-branch of the normalization theorem applied at the
spec's example `" 0xABCdef "`. -/
theorem normalize_address_spec_witness :
    normalize_address " 0xABCdef " =
      .ok ("0x" ++ String.mk (((pyStrip " 0xABCdef ").toList.drop 2).map
        Char.toLower)) :=
  (normalize_address_spec.1 " 0xABCdef ").2.1 (Or.inl (by decide))

/-- C5: the normalized `last_pulse_timestamp` is read from `lastPulse`,
falling back to `lastPulseTimestamp`; a value coercible to an integer above
10,000,000,000 is floor-divided by 1000, a coercible value at or below that
bound is kept, and an absent or non-coercible value yields null (the
normalizer is total, so no error is raised); with the spec's worked
examples. -/
theorem status_last_pulse_spec :
    (∀ (norm : String) (payload : List (String × PyVal)),
      (statusOfPayload norm payload).last_pulse_timestamp =
        match pyToInt (match pyGet payload "lastPulse" with
                       | PyVal.none => pyGet payload "lastPulseTimestamp"
                       | v => v) with
        | some n => some (if 10000000000 < n then Int.fdiv n 1000 else n)
        | Option.none => Option.none)
    ∧ (statusOfPayload "a" [("lastPulse", .int 1700000000)]).last_pulse_timestamp
        = some 1700000000
    ∧ (statusOfPayload "a" [("lastPulse", .int 1700000000000)]).last_pulse_timestamp
        = some 1700000000
    ∧ (statusOfPayload "a" [("lastPulseTimestamp", .int 7)]).last_pulse_timestamp
        = some 7
    ∧ (statusOfPayload "a" []).last_pulse_timestamp = Option.none
    ∧ (statusOfPayload "a" [("lastPulse", .str "soon")]).last_pulse_timestamp
        = Option.none
    ∧ (statusOfPayload "a"
        [("lastPulse", PyVal.float (mkRat (-7) 2))]).last_pulse_timestamp
        = some (-3)
    ∧ (statusOfPayload "a" [("lastPulse", .str "1_0")]).last_pulse_timestamp
        = some 10 := by
  refine ⟨fun norm payload => ?_, by decide, by decide, by decide, by decide,
    by decide, by decide, by decide⟩
  simp only [statusOfPayload]
  cases hw : (match pyGet payload "lastPulse" with
              | PyVal.none => pyGet payload "lastPulseTimestamp"
              | v => v) <;>
    simp [pyToInt]

/-- C9: any non-null value under `alive` (falling back to `isAlive`) is
coerced to a boolean by Python truthiness whatever its JSON type, and only
an absent or null value leaves the field null; with examples — `"false"`
and `2` are truthy, `""` and `0` are falsy. -/
theorem status_alive_spec :
    (∀ (norm : String) (payload : List (String × PyVal)),
      (statusOfPayload norm payload).alive =
        match pyGet payload "alive" with
        | PyVal.none =>
          (match pyGet payload "isAlive" with
           | PyVal.none => Option.none
           | v => some (pyTruthy v))
        | v => some (pyTruthy v))
    ∧ (statusOfPayload "a" [("alive", .str "false")]).alive = some true
    ∧ (statusOfPayload "a" [("isAlive", .str "false")]).alive = some true
    ∧ (statusOfPayload "a" [("alive", .int 2)]).alive = some true
    ∧ (statusOfPayload "a" [("alive", .str "")]).alive = some false
    ∧ (statusOfPayload "a" [("alive", .int 0)]).alive = some false
    ∧ (statusOfPayload "a" []).alive = Option.none
    ∧ (statusOfPayload "a" [("alive", PyVal.none)]).alive = Option.none := by
  refine ⟨fun norm payload => ?_, by decide, by decide, by decide, by decide,
    by decide, by decide, by decide⟩
  simp only [statusOfPayload]
  cases h1 : pyGet payload "alive" <;> cases h2 : pyGet payload "isAlive" <;>
    rfl

/-- Did an `Except` computation succeed? -/
def exceptOk {ε α : Type} : Except ε α → Bool
  | .ok _ => true
  | .error _ => false

theorem exceptOk_iff {ε α : Type} (x : Except ε α) :
    exceptOk x = true ↔ ∃ v, x = .ok v := by
  cases x <;> simp [exceptOk]

/-- The predicate an agent must pass to be kept by the batch filter: its
check succeeded and the returned status is recent. -/
def passCheck {α : Type} (check : α → Except PulseError AgentPulseStatus)
    (now_ts threshold_seconds : ℤ) (a : α) : Bool :=
  match check a with
  | .ok st => is_recent st now_ts threshold_seconds
  | .error _ => false

/-- With `drop_on_error` set, the loop checks every agent and keeps exactly
the passing ones, silently excluding the erroring ones. -/
theorem filterGo_drop {α : Type}
    (check : α → Except PulseError AgentPulseStatus) (now thr : ℤ)
    (l : List α) :
    filterGo check now thr true l =
      ⟨.ok (l.filter (passCheck check now thr)), l⟩ := by
  induction l with
  | nil => rfl
  | cons a rest ih =>
    cases h : check a with
    | ok st =>
      by_cases hr : is_recent st now thr <;>
        simp [filterGo, h, ih, List.filter_cons, passCheck, hr, Except.map]
    | error e =>
      simp [filterGo, h, ih, List.filter_cons, passCheck]

/-- When every check succeeds, the loop keeps exactly the passing agents,
for either error policy. -/
theorem filterGo_all_ok {α : Type}
    (check : α → Except PulseError AgentPulseStatus) (now thr : ℤ)
    (drop : Bool) (l : List α) (h : ∀ a ∈ l, exceptOk (check a) = true) :
    filterGo check now thr drop l =
      ⟨.ok (l.filter (passCheck check now thr)), l⟩ := by
  induction l with
  | nil => rfl
  | cons a rest ih =>
    obtain ⟨st, hst⟩ := (exceptOk_iff _).mp (h a (List.mem_cons_self a rest))
    have ih' := ih (fun x hx => h x (List.mem_cons_of_mem a hx))
    by_cases hr : is_recent st now thr <;>
      simp [filterGo, hst, ih', List.filter_cons, passCheck, hr, Except.map]

/-- Without `drop_on_error`, the first erroring agent aborts the loop: the
error propagates and the agents after it are never checked. -/
theorem filterGo_abort {α : Type}
    (check : α → Except PulseError AgentPulseStatus) (now thr : ℤ)
    (pre : List α) (a : α) (post : List α) (e : PulseError)
    (hpre : ∀ b ∈ pre, exceptOk (check b) = true) (ha : check a = .error e) :
    filterGo check now thr false (pre ++ a :: post) =
      ⟨.error e, pre ++ [a]⟩ := by
  induction pre with
  | nil => simp [filterGo, ha]
  | cons b pre ih =>
    obtain ⟨st, hst⟩ := (exceptOk_iff _).mp (hpre b (List.mem_cons_self b pre))
    have ih' := ih (fun x hx => hpre x (List.mem_cons_of_mem b hx))
    simp [filterGo, hst, ih', Except.map]

/-- C2: with a non-positive threshold the batch filter fails with the
invalid-argument error before checking any agent; with a positive threshold
and all checks succeeding it returns exactly the original agents that pass
the recency check (at `threshold_seconds = int(threshold_hours * 3600)`),
a sublist — same objects, original order — of the input. -/
theorem filter_alive_agents_spec {α : Type} (agents : List α)
    (threshold_hours : ℚ) (check : α → Except PulseError AgentPulseStatus)
    (now_ts : ℤ) (drop : Bool) :
    (threshold_hours ≤ 0 →
      filter_alive_agents agents threshold_hours check now_ts drop =
        ⟨.error (.valueError "threshold_hours must be > 0"), []⟩)
    ∧ (0 < threshold_hours →
      (∀ a ∈ agents, exceptOk (check a) = true) →
      filter_alive_agents agents threshold_hours check now_ts drop =
        ⟨.ok (agents.filter
            (passCheck check now_ts (ratTrunc (threshold_hours * 3600)))),
          agents⟩
        ∧ (agents.filter
            (passCheck check now_ts (ratTrunc (threshold_hours * 3600)))).Sublist
            agents) := by
  constructor
  · intro h
    simp [filter_alive_agents, h]
  · intro h hok
    refine ⟨?_, List.filter_sublist agents⟩
    rw [filter_alive_agents, if_neg (not_le.mpr h)]
    exact filterGo_all_ok check now_ts _ drop agents hok

/-- C2 witness: the positive-threshold branch applied to two agents whose
checks both succeed. -/
theorem filter_alive_agents_spec_witness :
    filter_alive_agents ["x", "y"] 24
        (fun a => .ok ⟨a, some true, Option.none, Option.none, []⟩) 1000 true =
      ⟨.ok (["x", "y"].filter
          (passCheck (fun a => .ok ⟨a, some true, Option.none, Option.none, []⟩)
            1000 (ratTrunc (24 * 3600)))),
        ["x", "y"]⟩ :=
  ((filter_alive_agents_spec ["x", "y"] 24
      (fun a => .ok ⟨a, some true, Option.none, Option.none, []⟩) 1000
      true).2 (by norm_num) (fun a _ => rfl)).1

/-- C3: with a positive threshold, `drop_on_error = true` checks every
agent and silently excludes every erroring one while the batch continues,
whereas `drop_on_error = false` aborts at the first erroring agent: that
error propagates, no result list is produced, and the agents after it are
never checked. -/
theorem filter_alive_agents_error_policy {α : Type} (agents : List α)
    (threshold_hours : ℚ) (check : α → Except PulseError AgentPulseStatus)
    (now_ts : ℤ) (hthr : 0 < threshold_hours) :
    (filter_alive_agents agents threshold_hours check now_ts true =
      ⟨.ok (agents.filter
          (passCheck check now_ts (ratTrunc (threshold_hours * 3600)))),
        agents⟩)
    ∧ (∀ (pre : List α) (a : α) (post : List α) (e : PulseError),
        agents = pre ++ a :: post →
        (∀ b ∈ pre, exceptOk (check b) = true) →
        check a = .error e →
        filter_alive_agents agents threshold_hours check now_ts false =
          ⟨.error e, pre ++ [a]⟩) := by
  constructor
  · rw [filter_alive_agents, if_neg (not_le.mpr hthr)]
    exact filterGo_drop check now_ts _ agents
  · intro pre a post e hsplit hpre ha
    rw [filter_alive_agents, if_neg (not_le.mpr hthr), hsplit]
    exact filterGo_abort check now_ts _ pre a post e hpre ha

/-- C3 witness: the strict branch applied to three agents whose middle
check errors — the error propagates and the third agent is never checked. -/
theorem filter_alive_agents_error_policy_witness :
    filter_alive_agents ["x", "y", "z"] 1
        (fun a =>
          if a = "y" then .error (.valueError "boom")
          else .ok ⟨a, some true, Option.none, Option.none, []⟩) 0 false =
      ⟨.error (.valueError "boom"), ["x", "y"]⟩ :=
  (filter_alive_agents_error_policy ["x", "y", "z"] 1
      (fun a =>
        if a = "y" then .error (.valueError "boom")
        else .ok ⟨a, some true, Option.none, Option.none, []⟩) 0
      (by norm_num)).2 ["x"] "y" ["z"] (.valueError "boom") rfl
    (by
      intro b hb
      rw [List.mem_singleton] at hb
      subst hb
      rfl)
    rfl

/-- The `AgentPulseError` that `_http_get_json` raises when it gives up on
the attempt outcome `r` (the `success` case never reaches the raise and is
irrelevant below, where a failure hypothesis is always in force). -/
def attemptError (url : String) : AttemptResult → PulseError
  | .httpError status body => .httpFail url status (strTruncate (body.getD "") 200)
  | .netError msg => .netFail url msg
  | .success _ => .netFail url ""

/-- The backoff sleeps for retries after attempts `attempt, …, attempt+k-1`:
`backoff * 2 ^ i` for each attempt index `i`. -/
theorem range_pow_shift (b : ℚ) (attempt k : ℕ) :
    b * 2 ^ attempt :: (List.range k).map (fun i => b * 2 ^ (attempt + 1 + i)) =
      (List.range (k + 1)).map (fun i => b * 2 ^ (attempt + i)) := by
  rw [List.range_succ_eq_map, List.map_cons, List.map_map]
  have hf : ((fun i => b * 2 ^ (attempt + i)) ∘ Nat.succ) =
      fun i => b * 2 ^ (attempt + 1 + i) := by
    funext i
    have h : attempt + Nat.succ i = attempt + 1 + i := by omega
    simp [Function.comp, h]
  rw [hf]
  norm_num

/-- Retryable failures at attempts `attempt, …, attempt+k-1` followed by a
success at attempt `attempt+k` (within budget) yield the payload, after the
scheduled backoff sleeps. -/
theorem http_from_success (script : ℕ → AttemptResult) (url : String)
    (mr : ℕ) (b : ℚ) :
    ∀ (k attempt : ℕ) (p : PyVal),
      attempt + k ≤ mr →
      (∀ i, i < k → retryableFailure (script (attempt + i)) = true) →
      script (attempt + k) = .success p →
      http_get_json_from script url mr b attempt =
        ⟨.ok p, (List.range k).map (fun i => b * 2 ^ (attempt + i)), k + 1⟩ := by
  intro k
  induction k with
  | zero =>
    intro attempt p hle hretry hs
    rw [Nat.add_zero] at hs
    rw [http_get_json_from, hs]
    rfl
  | succ k ih =>
    intro attempt p hle hretry hs
    have h0 : retryableFailure (script attempt) = true := by
      simpa using hretry 0 (Nat.succ_pos k)
    have hstep := ih (attempt + 1) p (by omega)
      (fun i hi => by
        have h := hretry (i + 1) (by omega)
        have he : attempt + (i + 1) = attempt + 1 + i := by omega
        rwa [he] at h)
      (by
        have he : attempt + (k + 1) = attempt + 1 + k := by omega
        rwa [he] at hs)
    cases hc : script attempt with
    | success q =>
      rw [hc] at h0
      simp [retryableFailure] at h0
    | httpError status body =>
      have hret : retryableStatus status = true := by
        rw [hc] at h0
        simpa [retryableFailure] using h0
      rw [http_get_json_from, hc]
      dsimp only
      rw [dif_neg (by simp [hret]; omega)]
      simp [hstep, range_pow_shift]
    | netError msg =>
      rw [http_get_json_from, hc]
      dsimp only
      rw [dif_neg (by omega)]
      simp [hstep, range_pow_shift]

/-- Retryable failures at attempts `attempt, …, attempt+k-1` followed by a
non-retryable HTTP status at attempt `attempt+k` (within budget) stop the
loop at once with the structured request error. -/
theorem http_from_nonretryable (script : ℕ → AttemptResult) (url : String)
    (mr : ℕ) (b : ℚ) :
    ∀ (k attempt : ℕ) (status : Option ℤ) (body : Option String),
      attempt + k ≤ mr →
      (∀ i, i < k → retryableFailure (script (attempt + i)) = true) →
      script (attempt + k) = .httpError status body →
      retryableStatus status = false →
      http_get_json_from script url mr b attempt =
        ⟨.error (.httpFail url status (strTruncate (body.getD "") 200)),
          (List.range k).map (fun i => b * 2 ^ (attempt + i)), k + 1⟩ := by
  intro k
  induction k with
  | zero =>
    intro attempt status body hle hretry hs hnr
    rw [Nat.add_zero] at hs
    rw [http_get_json_from, hs]
    dsimp only
    rw [dif_pos (Or.inr hnr)]
    rfl
  | succ k ih =>
    intro attempt status body hle hretry hs hnr
    have h0 : retryableFailure (script attempt) = true := by
      simpa using hretry 0 (Nat.succ_pos k)
    have hstep := ih (attempt + 1) status body (by omega)
      (fun i hi => by
        have h := hretry (i + 1) (by omega)
        have he : attempt + (i + 1) = attempt + 1 + i := by omega
        rwa [he] at h)
      (by
        have he : attempt + (k + 1) = attempt + 1 + k := by omega
        rwa [he] at hs)
      hnr
    cases hc : script attempt with
    | success q =>
      rw [hc] at h0
      simp [retryableFailure] at h0
    | httpError st bd =>
      have hret : retryableStatus st = true := by
        rw [hc] at h0
        simpa [retryableFailure] using h0
      rw [http_get_json_from, hc]
      dsimp only
      rw [dif_neg (by simp [hret]; omega)]
      simp [hstep, range_pow_shift]
    | netError msg =>
      rw [http_get_json_from, hc]
      dsimp only
      rw [dif_neg (by omega)]
      simp [hstep, range_pow_shift]

/-- When every attempt in the whole budget fails retryably, the loop makes
`maxRetries + 1` attempts, sleeps before each retry, and gives up with the
error of the final attempt. -/
theorem http_from_exhausted (script : ℕ → AttemptResult) (url : String)
    (mr : ℕ) (b : ℚ) :
    ∀ (k attempt : ℕ),
      attempt + k = mr →
      (∀ i, i ≤ k → retryableFailure (script (attempt + i)) = true) →
      http_get_json_from script url mr b attempt =
        ⟨.error (attemptError url (script mr)),
          (List.range k).map (fun i => b * 2 ^ (attempt + i)), k + 1⟩ := by
  intro k
  induction k with
  | zero =>
    intro attempt heq hretry
    have h0 : retryableFailure (script attempt) = true := by
      simpa using hretry 0 (Nat.le_refl 0)
    have hmr : mr = attempt := by omega
    rw [hmr]
    cases hc : script attempt with
    | success q =>
      rw [hc] at h0
      simp [retryableFailure] at h0
    | httpError st bd =>
      rw [http_get_json_from, hc]
      dsimp only
      rw [dif_pos (Or.inl (Nat.le_refl attempt))]
      rfl
    | netError msg =>
      rw [http_get_json_from, hc]
      dsimp only
      rw [dif_pos (Nat.le_refl attempt)]
      rfl
  | succ k ih =>
    intro attempt heq hretry
    have h0 : retryableFailure (script attempt) = true := by
      simpa using hretry 0 (Nat.zero_le _)
    have hstep := ih (attempt + 1) (by omega)
      (fun i hi => by
        have h := hretry (i + 1) (by omega)
        have he : attempt + (i + 1) = attempt + 1 + i := by omega
        rwa [he] at h)
    cases hc : script attempt with
    | success q =>
      rw [hc] at h0
      simp [retryableFailure] at h0
    | httpError st bd =>
      have hret : retryableStatus st = true := by
        rw [hc] at h0
        simpa [retryableFailure] using h0
      rw [http_get_json_from, hc]
      dsimp only
      rw [dif_neg (by simp [hret]; omega)]
      simp [hstep, range_pow_shift]
    | netError msg =>
      rw [http_get_json_from, hc]
      dsimp only
      rw [dif_neg (by omega)]
      simp [hstep, range_pow_shift]

/-- C4: statuses 408, 429 and any 5xx, and low-level network errors, are
retried with backoff `backoff * 2 ^ attempt` before each retry, up to
`maxRetries` additional attempts; any other HTTP status stops the fetch at
the attempt where it occurs; once retries are exhausted or a non-retryable
status is seen the fetch fails with a request error carrying the URL, the
status when available, and the body truncated to at most 200 characters. -/
theorem http_get_json_spec (script : ℕ → AttemptResult) (url : String)
    (mr : ℕ) (b : ℚ) :
    (∀ (k : ℕ) (p : PyVal), k ≤ mr →
      (∀ i, i < k → retryableFailure (script i) = true) →
      script k = .success p →
      http_get_json script url mr b =
        ⟨.ok p, (List.range k).map (fun i => b * 2 ^ i), k + 1⟩)
    ∧ (∀ (k : ℕ) (status : Option ℤ) (body : Option String), k ≤ mr →
      (∀ i, i < k → retryableFailure (script i) = true) →
      script k = .httpError status body →
      retryableStatus status = false →
      http_get_json script url mr b =
        ⟨.error (.httpFail url status (strTruncate (body.getD "") 200)),
          (List.range k).map (fun i => b * 2 ^ i), k + 1⟩)
    ∧ ((∀ i, i ≤ mr → retryableFailure (script i) = true) →
      http_get_json script url mr b =
        ⟨.error (attemptError url (script mr)),
          (List.range mr).map (fun i => b * 2 ^ i), mr + 1⟩)
    ∧ (∀ bd : String, (strTruncate bd 200).toList.length ≤ 200) := by
  have hpow : ∀ k : ℕ, ((List.range k).map (fun i => b * 2 ^ (0 + i))) =
      (List.range k).map (fun i => b * 2 ^ i) := by
    intro k
    simp
  refine ⟨?_, ?_, ?_, ?_⟩
  · intro k p hk hr hs
    rw [http_get_json,
      http_from_success script url mr b k 0 p (by omega)
        (fun i hi => by simpa using hr i hi) (by simpa using hs), hpow]
  · intro k status body hk hr hs hnr
    rw [http_get_json,
      http_from_nonretryable script url mr b k 0 status body (by omega)
        (fun i hi => by simpa using hr i hi) (by simpa using hs) hnr, hpow]
  · intro hall
    rw [http_get_json,
      http_from_exhausted script url mr b mr 0 (by omega)
        (fun i hi => by simpa using hall i hi), hpow]
  · intro bd
    simp [strTruncate]

/-- C4 witness: a 404 stops the fetch at the first attempt, with no retry
and no sleep, carrying the URL, the status and the (short) body. -/
theorem http_get_json_spec_witness :
    http_get_json (fun _ => .httpError (some 404) (some "nf")) "u" 3 (1 / 2) =
      ⟨.error (.httpFail "u" (some 404) (strTruncate "nf" 200)), [], 1⟩ := by
  have h := (http_get_json_spec (fun _ => .httpError (some 404) (some "nf"))
      "u" 3 (1 / 2)).2.1 0 (some 404) (some "nf") (by omega)
      (fun i hi => absurd hi (by omega)) rfl (by decide)
  simpa using h

/-- C10: Python's `bool` is a subclass of `int`, so `parse_threshold`
accepts booleans as numbers: `True` yields 1.0 hours, while `False` (value
0) fails with the non-positive-threshold error, not the unsupported-type
one. -/
theorem parse_threshold_bool :
    parse_threshold (.bool true) = .ok 1
    ∧ parse_threshold (.bool false) =
        .error (.valueError "threshold must be > 0") :=
  ⟨rfl, rfl⟩

end PulseFilter
